import Mathlib

/-!
Shallow embedding of the OpenFDA adverse-event dashboard's data-normalization
and aggregation layer (src/app.py and src/unnamed/part_000, "app 001.py").

Modelling conventions:
* JSON values decoded from the API are an inductive `Json`; JSON numbers in the
  relevant fields are integer codes, modelled by `Json.int`.
* A pandas `DataFrame(data)` row is a `RawRecord` (association list of fields);
  a missing key is an absent cell (pandas `NaN`), modelled by `Option`.
  Column access `df[c]` raises `KeyError` when no record has key `c`; this is
  modelled by `getColumn` returning `none`.
* Python `float(x)` is modelled by `pyFloat?` over `ℚ`: plain decimal string
  parsing (optional sign, digits, optional fractional part); IEEE specials
  (`inf`/`nan`), exponents and whitespace are outside the model.  Python
  `str(x)` is `pyStr`; container reprs are abbreviated (they can never hit a
  three-digit unit code, which is all the program compares them to).
* `pd.to_datetime(x, errors = coerce)` is modelled on the upstream compact
  `YYYYMMDD` form by `parseReceiptDate?`; any other shape coerces to `NaT`,
  i.e. `none`.  A parsed date is its `yyyymmdd` numeral; the calendar month of
  a date is the numeral `yyyymm`.
* `Series.value_counts()` is `valueCounts`: counts of distinct values in
  descending order; ties keep first-appearance order (stable insertion sort on
  the first-appearance-ordered uniques).
-/

namespace OpenFDA

/-- JSON-like values as decoded from the upstream API response. -/
inductive Json where
  | null : Json
  | bool : Bool → Json
  | int : Int → Json
  | str : String → Json
  | arr : List Json → Json
  | obj : List (String × Json) → Json

/-- Python dict access guarded by an isinstance check:
`x[k] if isinstance(x, dict) and k in x else` absent. -/
def Json.get? : Json → String → Option Json
  | .obj fields, k => fields.lookup k
  | _, _ => none

/-- One row of `pd.DataFrame(data)`: the raw record's key/value pairs. -/
abbrev RawRecord := List (String × Json)

/-- Cell of column `k` in a row: the record's value, or absent (`NaN`). -/
def getField (r : RawRecord) (k : String) : Option Json := r.lookup k

/-- Column existence test `c in df.columns`: some record carries the key. -/
def hasColumn (df : List RawRecord) (c : String) : Bool :=
  df.any fun r => (getField r c).isSome

/-- Column access `df[c]`: the per-row cells, or `none` for the `KeyError`
raised when no record has the key. -/
def getColumn (df : List RawRecord) (c : String) : Option (List (Option Json)) :=
  if hasColumn df c then some (df.map fun r => getField r c) else none

/-- Model of Python `str` on JSON-decoded values (container reprs abbreviated;
they are only ever compared against three-digit unit-code strings). -/
def pyStr : Json → String
  | .null => "None"
  | .bool true => "True"
  | .bool false => "False"
  | .int i => toString i
  | .str s => s
  | .arr _ => "[list]"
  | .obj _ => "(dict)"

/-- Numeric value of a digit list, most significant first. -/
def digitsVal (ds : List Char) : Nat :=
  ds.foldl (fun a c => a * 10 + (c.toNat - 48)) 0

/-- Model of Python `float` applied to a string: optional sign, digits with an
optional single decimal point, at least one digit overall. -/
def parseDecimal? (s : String) : Option ℚ :=
  let core : List Char → Option ℚ := fun cs =>
    let ip := cs.takeWhile Char.isDigit
    let rest := cs.dropWhile Char.isDigit
    match rest with
    | [] => if ip.isEmpty then none else some (digitsVal ip : ℚ)
    | '.' :: fp =>
      if fp.all Char.isDigit && (!ip.isEmpty || !fp.isEmpty) then
        some ((digitsVal ip : ℚ) + (digitsVal fp : ℚ) / (10 : ℚ) ^ fp.length)
      else none
    | _ => none
  match s.toList with
  | '-' :: cs => (core cs).map (fun q => -q)
  | '+' :: cs => core cs
  | cs => core cs

/-- Model of Python `float(x)` on a JSON-decoded value; `none` is the
`ValueError` / `TypeError` the source catches. -/
def pyFloat? : Json → Option ℚ
  | .int i => some (i : ℚ)
  | .bool b => some (if b then 1 else 0)
  | .str s => parseDecimal? s
  | _ => none

/-- The fixed unit-code conversion table `AGE_UNIT_MAP` of the source. -/
def AGE_UNIT_MAP : List (String × ℚ) :=
  [("800", 10), ("801", 1), ("802", 1 / 12), ("803", 1 / 365),
   ("804", 1 / (365 * 24))]

/-- Source `get_normalized_age(patient_data)`: both keys present on a dict,
`float` of the age, `str` of the unit, multiplier looked up in the table;
every failure path returns `None`. -/
def get_normalized_age (patient_data : Option Json) : Option ℚ :=
  match patient_data with
  | some p =>
    match p.get? "patientonsetage", p.get? "patientonsetageunit" with
    | some rawAge, some rawUnit =>
      match pyFloat? rawAge with
      | some age =>
        match AGE_UNIT_MAP.lookup (pyStr rawUnit) with
        | some mult => some (age * mult)
        | none => none
      | none => none
    | _, _ => none
  | none => none

/-- Source lambda over the patient column:
`x[patientsex] if isinstance(x, dict) and patientsex in x else None`. -/
def extract_sex (x : Option Json) : Option Json :=
  match x with
  | some p => p.get? "patientsex"
  | none => none

/-- Source `.map(dict).fillna` over the raw sex codes: the dict keys are the
four strings 1, 2, M, F; anything else becomes the unspecified sentinel. -/
def genderMapped (v : Option Json) : String :=
  match v with
  | some (.str s) =>
    if s = "1" then "Masculino"
    else if s = "2" then "Feminino"
    else if s = "M" then "Masculino"
    else if s = "F" then "Feminino"
    else "Não Informado"
  | _ => "Não Informado"

/-- Source lambda over the primarysource column:
`x[reportercountry] if isinstance(x, dict) and reportercountry in x else` the
sentinel string. -/
def extractCountry (x : Option Json) : Json :=
  match x with
  | some p =>
    match p.get? "reportercountry" with
    | some v => v
    | none => .str "Desconhecido"
  | none => .str "Desconhecido"

/-- Source `df[primarysource].apply(lambda ...)`: unguarded column access
followed by the per-cell extraction (`none` models the `KeyError` when no
record has a primarysource field). -/
def countries (df : List RawRecord) : Option (List Json) :=
  (getColumn df "primarysource").map fun col => col.map extractCountry

/-- Source `get_medicinal_products(patient_data)`: iterate the drug list,
appending the `medicinalproduct` value of every dict entry that has the key. -/
def get_medicinal_products (patient_data : Option Json) : List Json :=
  match patient_data with
  | some p =>
    match p.get? "drug" with
    | some (.arr ds) => ds.filterMap fun d => d.get? "medicinalproduct"
    | _ => []
  | none => []

/-- Source `get_reactions(patient_data)`: iterate the reaction list, appending
the `reactionmeddrapt` value of every dict entry that has the key. -/
def get_reactions (patient_data : Option Json) : List Json :=
  match patient_data with
  | some p =>
    match p.get? "reaction" with
    | some (.arr rs) => rs.filterMap fun d => d.get? "reactionmeddrapt"
    | _ => []
  | none => []

/-- Source list comprehension
`[item for sublist in lists if sublist for item in sublist]`. -/
def flatNonempty (ls : List (List Json)) : List Json :=
  (ls.filter fun l => !l.isEmpty).flatten

/-- Model of `pd.to_datetime(x, errors = coerce)` on the upstream compact
`YYYYMMDD` strings: the eight-digit numeral with a plausible month and day, as
the `Nat` `yyyymmdd`; anything else coerces to `NaT` (`none`). -/
def parseReceiptDate? (x : Option Json) : Option Nat :=
  match x with
  | some (.str s) =>
    let cs := s.toList
    if cs.length = 8 ∧ cs.all Char.isDigit then
      let key := digitsVal cs
      if 1 ≤ key / 100 % 100 ∧ key / 100 % 100 ≤ 12 ∧ 1 ≤ key % 100 ∧ key % 100 ≤ 31 then
        some key
      else none
    else none
  | _ => none

/-- The `receipt_date` cell of a row: `to_datetime` of its `receiptdate`
field. -/
def receiptDate? (r : RawRecord) : Option Nat :=
  parseReceiptDate? (getField r "receiptdate")

/-- Source `df.dropna(subset = [receipt_date])`: keep the rows whose date
parsed. -/
def droppedDf (df : List RawRecord) : List RawRecord :=
  df.filter fun r => (receiptDate? r).isSome

/-- Source range filter
`df[(df[receipt_date].dt.date >= start) & (df[receipt_date].dt.date <= end)]`;
a `NaT` cell compares false on both ends. -/
def filterByRange (rows : List RawRecord) (s e : Nat) : List RawRecord :=
  rows.filter fun r =>
    match receiptDate? r with
    | some d => decide (s ≤ d) && decide (d ≤ e)
    | none => false

/-- The working set of the app-001 variant (src/unnamed/part_000): when the
`receiptdate` column exists, bad-date rows are dropped and the slider range
`[s, e]` is applied, all before any aggregation; otherwise the frame is used
unfiltered. -/
def app001FilteredDf (df : List RawRecord) (s e : Nat) : List RawRecord :=
  if hasColumn df "receiptdate" then filterByRange (droppedDf df) s e else df

/-- The valid receipt dates of a row set (its `receipt_date` column after
dropping `NaT`). -/
def rowDates (rows : List RawRecord) : List Nat :=
  rows.filterMap receiptDate?

/-- The patient column of a row set. -/
def patientsCol (rows : List RawRecord) : List (Option Json) :=
  rows.map fun r => getField r "patient"

/-- The `normalized_age` column after `dropna`. -/
def normalizedAges (rows : List RawRecord) : List ℚ :=
  rows.filterMap fun r => get_normalized_age (getField r "patient")

/-- Spec `summary_stats`: the mean branch of the source, which shows the mean
only when the valid ages are nonempty. -/
def summary_mean? (ages : List ℚ) : Option ℚ :=
  if ages.isEmpty then none else some (ages.sum / (ages.length : ℚ))

/-- The displayed mean age of a row set. -/
def meanAge? (rows : List RawRecord) : Option ℚ :=
  summary_mean? (normalizedAges rows)

/-- Distinct values of a list in order of first appearance (the unique keys a
pandas hash table produces before `value_counts` sorts them). -/
def firstUniques {α : Type _} [DecidableEq α] (xs : List α) : List α :=
  xs.foldl (fun acc x => if x ∈ acc then acc else acc ++ [x]) []

/-- Descending-count order on keyed counts. -/
def cntGE {α : Type _} (p q : α × Nat) : Prop := q.2 ≤ p.2

instance {α : Type _} : DecidableRel (cntGE (α := α)) :=
  fun _ _ => Nat.decLe _ _

instance {α : Type _} : IsTotal (α × Nat) cntGE :=
  ⟨fun p q => Nat.le_total q.2 p.2⟩

instance {α : Type _} : IsTrans (α × Nat) cntGE :=
  ⟨fun _ _ _ h1 h2 => Nat.le_trans h2 h1⟩

/-- Model of `Series.value_counts()`: pair every distinct value with its
number of occurrences and sort descending by count, ties keeping
first-appearance order (stable insertion sort). -/
def valueCounts {α : Type _} [DecidableEq α] (xs : List α) : List (α × Nat) :=
  List.insertionSort cntGE ((firstUniques xs).map fun v => (v, xs.count v))

/-- Model of `Series.head(n)`. -/
def seriesHead {α : Type _} (xs : List α) (n : Nat) : List α := xs.take n

/-- Spec `top_n_frequency`: the source composition `value_counts().head(n)`. -/
def top_n_frequency {α : Type _} [DecidableEq α] (values : List α) (n : Nat) :
    List (α × Nat) :=
  seriesHead (valueCounts values) n

/-- Gender frequency table of a patient column: extract the sex code, apply
the dict mapping with the unspecified sentinel, count values. -/
def genderCountsOf (cells : List (Option Json)) : List (String × Nat) :=
  valueCounts (cells.map fun x => genderMapped (extract_sex x))

/-- The app.py variant computes the gender table from the full frame, before
its temporal section drops bad-date rows (guarded by the patient column
existing). -/
def appGenderCounts (df : List RawRecord) : Option (List (String × Nat)) :=
  (getColumn df "patient").map genderCountsOf

/-- Calendar month (`yyyymm`) of a date key (`yyyymmdd`). -/
def monthOf (d : Nat) : Nat := d / 100

/-- Serial index of a month key (months since year 0). -/
def monthIdx (m : Nat) : Nat := m / 100 * 12 + m % 100 - 1

/-- Month key of a serial month index. -/
def idxMonth (t : Nat) : Nat := t / 12 * 100 + t % 12 + 1

/-- The month key `k` calendar months after `m`. -/
def addMonths (m k : Nat) : Nat := idxMonth (monthIdx m + k)

/-- Number of calendar-month steps from month `a` to month `b`. -/
def monthsBetween (a b : Nat) : Nat := monthIdx b - monthIdx a

/-- All month keys from `a` to `b` inclusive. -/
def monthRange (a b : Nat) : List Nat :=
  (List.range (monthsBetween a b + 1)).map fun k => addMonths a k

/-- Model of `groupby(pd.Grouper(key = receipt_date, freq = ME)).size()`: one
bin per calendar month spanning the whole observed range (a time `Grouper`
resamples, so months without rows appear with count 0), each bin counting the
rows whose date falls in that month. -/
def eventsOverTime (dates : List Nat) : List (Nat × Nat) :=
  match dates.min?, dates.max? with
  | some a, some b =>
    (monthRange (monthOf a) (monthOf b)).map fun m =>
      (m, dates.countP fun d => monthOf d == m)
  | _, _ => []

/-- Month keys whose month digits are plausible (what `parseReceiptDate?`
produces, projected to months). -/
def validMonthKey (m : Nat) : Prop := 1 ≤ m % 100 ∧ m % 100 ≤ 12

instance (m : Nat) : Decidable (validMonthKey m) :=
  inferInstanceAs (Decidable (1 ≤ m % 100 ∧ m % 100 ≤ 12))

/-! Helper lemmas about the aggregation machinery. -/

theorem mem_foldl_firstUniques {α : Type _} [DecidableEq α] (xs : List α)
    (acc : List α) (v : α) :
    v ∈ xs.foldl (fun acc x => if x ∈ acc then acc else acc ++ [x]) acc ↔
      v ∈ acc ∨ v ∈ xs := by
  induction xs generalizing acc with
  | nil => simp
  | cons x xs ih =>
    simp only [List.foldl_cons, ih, List.mem_cons]
    by_cases hx : x ∈ acc
    · simp only [if_pos hx]
      constructor
      · rintro (h | h)
        · exact Or.inl h
        · exact Or.inr (Or.inr h)
      · rintro (h | h | h)
        · exact Or.inl h
        · exact Or.inl (h ▸ hx)
        · exact Or.inr h
    · simp only [if_neg hx, List.mem_append, List.mem_singleton]
      tauto

theorem mem_firstUniques {α : Type _} [DecidableEq α] {xs : List α} {v : α} :
    v ∈ firstUniques xs ↔ v ∈ xs := by
  unfold firstUniques
  rw [mem_foldl_firstUniques]
  simp

theorem nodup_foldl_firstUniques {α : Type _} [DecidableEq α] (xs : List α)
    (acc : List α) (h : acc.Nodup) :
    (xs.foldl (fun acc x => if x ∈ acc then acc else acc ++ [x]) acc).Nodup := by
  induction xs generalizing acc with
  | nil => simpa using h
  | cons x xs ih =>
    simp only [List.foldl_cons]
    by_cases hx : x ∈ acc
    · rw [if_pos hx]; exact ih acc h
    · rw [if_neg hx]
      exact ih _ (by simpa using List.Nodup.concat hx h)

theorem nodup_firstUniques {α : Type _} [DecidableEq α] (xs : List α) :
    (firstUniques xs).Nodup :=
  nodup_foldl_firstUniques xs [] List.nodup_nil

theorem mem_valueCounts {α : Type _} [DecidableEq α] {xs : List α}
    {p : α × Nat} :
    p ∈ valueCounts xs ↔ p.1 ∈ xs ∧ p.2 = xs.count p.1 := by
  unfold valueCounts
  rw [List.mem_insertionSort, List.mem_map]
  constructor
  · rintro ⟨v, hv, rfl⟩
    exact ⟨mem_firstUniques.1 hv, rfl⟩
  · rintro ⟨h1, h2⟩
    exact ⟨p.1, mem_firstUniques.2 h1, by rw [← h2]⟩

theorem sorted_valueCounts {α : Type _} [DecidableEq α] (xs : List α) :
    List.Pairwise cntGE (valueCounts xs) :=
  List.sorted_insertionSort cntGE _

theorem filter_orderedInsert_cnt {α : Type _} (c : Nat) (a : α × Nat)
    (s : List (α × Nat)) :
    (List.orderedInsert cntGE a s).filter (fun p => p.2 == c) =
      if a.2 = c then a :: s.filter (fun p => p.2 == c)
      else s.filter (fun p => p.2 == c) := by
  induction s with
  | nil =>
    by_cases h : a.2 = c <;>
      simp [List.orderedInsert, List.filter_cons, h]
  | cons b t ih =>
    simp only [List.orderedInsert]
    by_cases hr : cntGE a b
    · rw [if_pos hr]
      by_cases h : a.2 = c <;> simp [List.filter_cons, h]
    · rw [if_neg hr]
      unfold cntGE at hr
      by_cases h : a.2 = c
      · have hb : ¬ b.2 = c := by omega
        simp [List.filter_cons, ih, h, hb]
      · by_cases hb : b.2 = c <;> simp [List.filter_cons, ih, h, hb]

theorem filter_insertionSort_cnt {α : Type _} (c : Nat)
    (l : List (α × Nat)) :
    (List.insertionSort cntGE l).filter (fun p => p.2 == c) =
      l.filter (fun p => p.2 == c) := by
  induction l with
  | nil => rfl
  | cons a t ih =>
    simp only [List.insertionSort, filter_orderedInsert_cnt, ih,
      List.filter_cons]
    by_cases h : a.2 = c <;> simp [h]

theorem ties_valueCounts {α : Type _} [DecidableEq α] (xs : List α)
    (c : Nat) :
    ((valueCounts xs).filter (fun p => p.2 == c)).map Prod.fst =
      (firstUniques xs).filter (fun v => xs.count v == c) := by
  unfold valueCounts
  rw [filter_insertionSort_cnt, List.filter_map]
  rw [List.map_map]
  have h1 : (Prod.fst ∘ fun v : α => (v, xs.count v)) = id := rfl
  have h2 : ((fun p : α × Nat => p.2 == c) ∘ fun v : α => (v, xs.count v)) =
      fun v => xs.count v == c := rfl
  rw [h1, h2, List.map_id]

theorem mem_keys_valueCounts {α : Type _} [DecidableEq α] {xs : List α}
    {v : α} (h : v ∈ xs) : v ∈ (valueCounts xs).map Prod.fst :=
  List.mem_map.2 ⟨(v, xs.count v), mem_valueCounts.2 ⟨h, rfl⟩, rfl⟩

theorem idxMonth_monthIdx {m : Nat} (h : validMonthKey m) :
    idxMonth (monthIdx m) = m := by
  unfold validMonthKey at h
  unfold idxMonth monthIdx
  omega

theorem monthIdx_mono {a b : Nat} (ha : validMonthKey a)
    (hb : validMonthKey b) (h : a ≤ b) : monthIdx a ≤ monthIdx b := by
  unfold validMonthKey at ha hb
  unfold monthIdx
  omega

theorem monthOf_mono {a b : Nat} (h : a ≤ b) : monthOf a ≤ monthOf b :=
  Nat.div_le_div_right h

theorem mem_monthRange {a b m : Nat} (hm : validMonthKey m)
    (h1 : monthIdx a ≤ monthIdx m) (h2 : monthIdx m ≤ monthIdx b) :
    m ∈ monthRange a b := by
  unfold monthRange
  refine List.mem_map.2 ⟨monthIdx m - monthIdx a, ?_, ?_⟩
  · rw [List.mem_range]
    unfold monthsBetween
    omega
  · unfold addMonths
    have he : monthIdx a + (monthIdx m - monthIdx a) = monthIdx m := by omega
    rw [he, idxMonth_monthIdx hm]

theorem validMonthKey_of_parse {x : Option Json} {key : Nat}
    (h : parseReceiptDate? x = some key) : validMonthKey (monthOf key) := by
  unfold parseReceiptDate? at h
  match x with
  | none => exact absurd h (by simp)
  | some (.null) => exact absurd h (by simp)
  | some (.bool b) => exact absurd h (by simp)
  | some (.int i) => exact absurd h (by simp)
  | some (.arr l) => exact absurd h (by simp)
  | some (.obj l) => exact absurd h (by simp)
  | some (.str s) =>
    simp only at h
    split at h
    · split at h
      · rename_i hc
        injection h with h
        subst h
        unfold validMonthKey monthOf
        omega
      · exact absurd h (by simp)
    · exact absurd h (by simp)

/-- Patient subrecord carrying a raw age value and a raw unit code. -/
def mkPatient (a u : Json) : Json :=
  Json.obj [("patientonsetage", a), ("patientonsetageunit", u)]

theorem get_normalized_age_mkPatient (a u : Json) :
    get_normalized_age (some (mkPatient a u)) =
      match pyFloat? a with
      | some age =>
        match AGE_UNIT_MAP.lookup (pyStr u) with
        | some mult => some (age * mult)
        | none => none
      | none => none := rfl

/-! Claim theorems. -/

/-- C5: age normalization multiplies the parsed numeric age by the fixed
table decade→10, year→1, month→1/12, day→1/365, hour→1/(365·24), and yields
an absent result when the age does not parse as a number or the unit code is
not in the table; `normalize_age(72, decade) = 720`, `normalize_age("abc",
year)` is absent, and `normalize_age(5, "999")` is absent. -/
theorem C5_age_normalization (a u : Json) :
    (∀ q m, pyFloat? a = some q → AGE_UNIT_MAP.lookup (pyStr u) = some m →
      get_normalized_age (some (mkPatient a u)) = some (q * m)) ∧
    (pyFloat? a = none → get_normalized_age (some (mkPatient a u)) = none) ∧
    (AGE_UNIT_MAP.lookup (pyStr u) = none →
      get_normalized_age (some (mkPatient a u)) = none) ∧
    (AGE_UNIT_MAP.lookup "800" = some 10 ∧
      AGE_UNIT_MAP.lookup "801" = some 1 ∧
      AGE_UNIT_MAP.lookup "802" = some (1 / 12) ∧
      AGE_UNIT_MAP.lookup "803" = some (1 / 365) ∧
      AGE_UNIT_MAP.lookup "804" = some (1 / (365 * 24))) ∧
    get_normalized_age (some (mkPatient (Json.int 72) (Json.str "800"))) =
      some 720 ∧
    get_normalized_age (some (mkPatient (Json.str "abc") (Json.str "801"))) =
      none ∧
    get_normalized_age (some (mkPatient (Json.int 5) (Json.str "999"))) =
      none := by
  refine ⟨?_, ?_, ?_, ⟨rfl, rfl, rfl, rfl, rfl⟩, ?_, rfl, rfl⟩
  · intro q m hq hm
    rw [get_normalized_age_mkPatient, hq, hm]
  · intro hq
    rw [get_normalized_age_mkPatient, hq]
  · intro hm
    rw [get_normalized_age_mkPatient]
    cases hq : pyFloat? a
    · rfl
    · rw [hm]
  · have h₁ : get_normalized_age (some (mkPatient (Json.int 72)
        (Json.str "800"))) = some (((72 : ℤ) : ℚ) * 10) := rfl
    rw [h₁]
    norm_num

/-- Witness for C5 at age 72, unit code 800 (decades). -/
theorem C5_witness :
    get_normalized_age (some (mkPatient (Json.int 72) (Json.str "800"))) =
      some (((72 : ℤ) : ℚ) * 10) :=
  (C5_age_normalization (Json.int 72) (Json.str "800")).1 ((72 : ℤ) : ℚ) 10
    rfl rfl

/-- C9: the drug-name and reaction-term extractors check only that the name
key is present in an entry, never the type of its value: a present value that
is null or a non-string is included in the returned sequence rather than the
entry being skipped. -/
theorem C9_extractors_keep_nonstring_values (ds rs : List Json)
    (fields : List (String × Json)) (v : Json) :
    (fields.lookup "medicinalproduct" = some v → Json.obj fields ∈ ds →
      v ∈ get_medicinal_products (some (Json.obj [("drug", Json.arr ds)]))) ∧
    (fields.lookup "reactionmeddrapt" = some v → Json.obj fields ∈ rs →
      v ∈ get_reactions (some (Json.obj [("reaction", Json.arr rs)]))) ∧
    get_medicinal_products (some (Json.obj
      [("drug", Json.arr [Json.obj [("medicinalproduct", Json.null)]])])) =
      [Json.null] ∧
    get_reactions (some (Json.obj
      [("reaction", Json.arr [Json.obj [("reactionmeddrapt", Json.int 7)]])])) =
      [Json.int 7] := by
  refine ⟨?_, ?_, rfl, rfl⟩
  · intro hlk hmem
    have he : get_medicinal_products (some (Json.obj [("drug", Json.arr ds)])) =
        ds.filterMap fun d => d.get? "medicinalproduct" := rfl
    rw [he]
    exact List.mem_filterMap.2 ⟨Json.obj fields, hmem, hlk⟩
  · intro hlk hmem
    have he : get_reactions (some (Json.obj [("reaction", Json.arr rs)])) =
        rs.filterMap fun d => d.get? "reactionmeddrapt" := rfl
    rw [he]
    exact List.mem_filterMap.2 ⟨Json.obj fields, hmem, hlk⟩

/-- Witness for C9: a null drug name is kept in the extracted sequence. -/
theorem C9_witness :
    Json.null ∈ get_medicinal_products (some (Json.obj
      [("drug", Json.arr [Json.obj [("medicinalproduct", Json.null)]])])) :=
  (C9_extractors_keep_nonstring_values
      [Json.obj [("medicinalproduct", Json.null)]] []
      [("medicinalproduct", Json.null)] Json.null).1 rfl (List.Mem.head _)

/-- C10: the sex-category mapping matches the raw code by exact value against
the four string keys 1, 2, M, F only; every other extracted value — integer
codes, lowercase letters, unrecognized strings, or a missing code — maps to
the unspecified sentinel, and the sentinel appears in the frequency table
whenever at least one record has a missing or unmapped sex code. -/
theorem C10_sex_mapping (cells : List (Option Json)) (s : String)
    (v : Option Json) :
    genderMapped (some (Json.str "1")) = "Masculino" ∧
    genderMapped (some (Json.str "2")) = "Feminino" ∧
    genderMapped (some (Json.str "M")) = "Masculino" ∧
    genderMapped (some (Json.str "F")) = "Feminino" ∧
    genderMapped (some (Json.int 1)) = "Não Informado" ∧
    genderMapped (some (Json.int 2)) = "Não Informado" ∧
    genderMapped (some (Json.str "m")) = "Não Informado" ∧
    genderMapped (some (Json.str "f")) = "Não Informado" ∧
    genderMapped none = "Não Informado" ∧
    (s ≠ "1" → s ≠ "2" → s ≠ "M" → s ≠ "F" →
      genderMapped (some (Json.str s)) = "Não Informado") ∧
    ((∀ t : String, v ≠ some (Json.str t)) →
      genderMapped v = "Não Informado") ∧
    ((∃ x ∈ cells, genderMapped (extract_sex x) = "Não Informado") →
      "Não Informado" ∈ (genderCountsOf cells).map Prod.fst) := by
  refine ⟨rfl, rfl, rfl, rfl, rfl, rfl, rfl, rfl, rfl, ?_, ?_, ?_⟩
  · intro h1 h2 h3 h4
    simp [genderMapped, h1, h2, h3, h4]
  · intro h
    match v with
    | none => rfl
    | some Json.null => rfl
    | some (Json.bool b) => rfl
    | some (Json.int i) => rfl
    | some (Json.str t) => exact absurd rfl (h t)
    | some (Json.arr l) => rfl
    | some (Json.obj l) => rfl
  · rintro ⟨x, hx, he⟩
    exact mem_keys_valueCounts
      (List.mem_map.2 ⟨x, hx, he⟩)

/-- Witness for C10: one record with a missing sex code puts the sentinel in
the table. -/
theorem C10_witness :
    "Não Informado" ∈ (genderCountsOf [none]).map Prod.fst :=
  (C10_sex_mapping [none] "" none).2.2.2.2.2.2.2.2.2.2.2
    ⟨none, List.Mem.head _, rfl⟩

/-- C4: the top-N frequency aggregation counts occurrences of each distinct
value with exact (case-sensitive) match, orders descending by count with ties
broken by first-encountered order, and truncates to `n` entries; on the list
A B A C B A with `n = 2` it yields A↦3, B↦2 in that order. -/
theorem C4_top_n_frequency {α : Type _} [DecidableEq α] (xs : List α)
    (n c : Nat) (p : α × Nat) :
    (p ∈ valueCounts xs ↔ p.1 ∈ xs ∧ p.2 = xs.count p.1) ∧
    List.Pairwise cntGE (valueCounts xs) ∧
    ((valueCounts xs).filter (fun q => q.2 == c)).map Prod.fst =
      (firstUniques xs).filter (fun v => xs.count v == c) ∧
    (firstUniques xs).Nodup ∧
    (∀ v : α, v ∈ firstUniques xs ↔ v ∈ xs) ∧
    top_n_frequency xs n = (valueCounts xs).take n ∧
    (top_n_frequency xs n).length ≤ n ∧
    top_n_frequency ["A", "B", "A", "C", "B", "A"] 2 =
      [("A", 3), ("B", 2)] := by
  refine ⟨mem_valueCounts, sorted_valueCounts xs, ties_valueCounts xs c,
    nodup_firstUniques xs, fun v => mem_firstUniques, rfl, ?_, by decide⟩
  exact List.length_take_le n (valueCounts xs)

/-- C8: the age summary is the arithmetic mean of the non-absent normalized
ages; on an empty input it is absent (a no-data indication), with no division
by zero and no value mislabeled as a real mean. -/
theorem C8_summary_mean (ages : List ℚ) (rows : List RawRecord) :
    summary_mean? [] = none ∧
    (ages ≠ [] →
      summary_mean? ages = some (ages.sum / (ages.length : ℚ)) ∧
        (ages.length : ℚ) ≠ 0) ∧
    (∀ m, summary_mean? ages = some m →
      ages ≠ [] ∧ m = ages.sum / (ages.length : ℚ)) ∧
    meanAge? rows = summary_mean? (normalizedAges rows) := by
  refine ⟨rfl, ?_, ?_, rfl⟩
  · intro h
    constructor
    · simp [summary_mean?, h]
    · exact Nat.cast_ne_zero.2 fun hl => h (List.length_eq_zero.mp hl)
  · intro m hm
    by_cases h : ages = []
    · rw [h] at hm
      exact absurd hm (by simp [summary_mean?])
    · refine ⟨h, ?_⟩
      rw [summary_mean?, if_neg (by simpa using h)] at hm
      exact (Option.some_inj.1 hm).symm

/-- Witness for C8 on the nonempty age list 1, 2, 3. -/
theorem C8_witness :
    summary_mean? [(1 : ℚ), 2, 3] =
      some (([(1 : ℚ), 2, 3]).sum / (([(1 : ℚ), 2, 3]).length : ℚ)) ∧
    ((([(1 : ℚ), 2, 3]).length : ℚ) ≠ 0) :=
  (C8_summary_mean [(1 : ℚ), 2, 3] []).2.1 (by simp)

/-- C2 counterexample: on a nonempty record set where no record has a
primarysource field, the unguarded column access raises (modeled by `none`),
so the extraction does not return a per-record sentinel. -/
theorem C2_counterexample :
    countries [[("receiptdate", Json.str "20240101")]] = none ∧
    ([[("receiptdate", Json.str "20240101")]] : List RawRecord) ≠ [] :=
  ⟨rfl, by simp⟩

/-- C2 (amended): provided at least one record in the set has a primarysource
field (so the column exists), the country extraction returns, for every
record, the reportercountry value when the subrecord is a mapping carrying
the field, and the sentinel Desconhecido otherwise, without raising; when no
record has the field, the bare column access raises instead. -/
theorem C2_country_extraction (df : List RawRecord) (x : Option Json)
    (v : Json) :
    (hasColumn df "primarysource" = true →
      countries df =
        some (df.map fun r => extractCountry (getField r "primarysource"))) ∧
    (x.bind (fun p => p.get? "reportercountry") = some v →
      extractCountry x = v) ∧
    (x.bind (fun p => p.get? "reportercountry") = none →
      extractCountry x = Json.str "Desconhecido") := by
  refine ⟨?_, ?_, ?_⟩
  · intro h
    rw [countries, getColumn, if_pos h, Option.map_some', List.map_map]
    rfl
  · intro h
    match x with
    | none => exact absurd h (by simp)
    | some p =>
      rw [Option.some_bind] at h
      have he : extractCountry (some p) =
          match p.get? "reportercountry" with
          | some w => w
          | none => Json.str "Desconhecido" := rfl
      rw [he, h]
  · intro h
    match x with
    | none => rfl
    | some p =>
      rw [Option.some_bind] at h
      have he : extractCountry (some p) =
          match p.get? "reportercountry" with
          | some w => w
          | none => Json.str "Desconhecido" := rfl
      rw [he, h]

/-- Witness for C2 on a one-record frame carrying a primarysource field. -/
theorem C2_witness :
    countries [[("primarysource",
        Json.obj [("reportercountry", Json.str "US")])]] =
      some [Json.str "US"] ∧
    extractCountry none = Json.str "Desconhecido" := by
  constructor
  · exact ((C2_country_extraction
      [[("primarysource", Json.obj [("reportercountry", Json.str "US")])]]
      none Json.null).1 rfl).trans rfl
  · exact (C2_country_extraction [] none Json.null).2.2 rfl

/-- C7: the date-range filter keeps exactly the rows whose date lies in the
closed interval: membership characterization, the single-day case
`start = end`, and emptiness when the range misses every observed date. -/
theorem C7_filter_by_range (rows : List RawRecord) (s e d : Nat)
    (r : RawRecord) :
    (r ∈ filterByRange rows s e ↔
      r ∈ rows ∧ ∃ x, receiptDate? r = some x ∧ s ≤ x ∧ x ≤ e) ∧
    (filterByRange rows d d =
      rows.filter fun q => decide (receiptDate? q = some d)) ∧
    ((∀ q ∈ rows, ∀ x, receiptDate? q = some x → x < s ∨ e < x) →
      filterByRange rows s e = []) := by
  refine ⟨?_, ?_, ?_⟩
  · rw [filterByRange, List.mem_filter]
    constructor
    · rintro ⟨h1, h2⟩
      refine ⟨h1, ?_⟩
      cases hd : receiptDate? r with
      | none => rw [hd] at h2; exact absurd h2 (by simp)
      | some x =>
        rw [hd] at h2
        simp only [Bool.and_eq_true, decide_eq_true_eq] at h2
        exact ⟨x, rfl, h2.1, h2.2⟩
    · rintro ⟨h1, x, hx, hs, he⟩
      refine ⟨h1, ?_⟩
      rw [hx]
      simp [hs, he]
  · rw [filterByRange]
    apply List.filter_congr
    intro q _
    cases hd : receiptDate? q with
    | none => simp
    | some x =>
      by_cases hx : x = d
      · simp [hx]
      · simp only [decide_eq_true_eq, Option.some_inj]
        have h1 : ¬(d ≤ x ∧ x ≤ d) := fun hc =>
          hx (Nat.le_antisymm hc.2 hc.1)
        have h2 : (decide (d ≤ x) && decide (x ≤ d)) = decide (d ≤ x ∧ x ≤ d) :=
          (Bool.decide_and _ _).symm
        rw [h2, decide_eq_false h1, decide_eq_false hx]
  · intro h
    rw [filterByRange, List.filter_eq_nil_iff]
    intro q hq
    cases hd : receiptDate? q with
    | none => simp
    | some x =>
      have := h q hq x hd
      simp only [Bool.and_eq_true, decide_eq_true_eq, not_and]
      omega

/-- Witness for C7: a range strictly after the only observed date filters the
set down to empty. -/
theorem C7_witness :
    filterByRange [[("receiptdate", Json.str "20240105")]]
      20240201 20240301 = [] :=
  (C7_filter_by_range [[("receiptdate", Json.str "20240105")]]
      20240201 20240301 0 []).2.2 (by
    intro q hq x hx
    rw [List.mem_singleton] at hq
    subst hq
    rw [show receiptDate? [("receiptdate", Json.str "20240105")] =
      some 20240105 from rfl] at hx
    injection hx with hx
    omega)

/-- C6: filtering the dated working set to its full observed min/max range
(the slider default) is the identity, so every downstream aggregate — the
gender frequency table, the monthly time series, and the mean age — is
reproduced exactly. -/
theorem C6_full_range_round_trip (df : List RawRecord) (a b : Nat)
    (ha : (rowDates (droppedDf df)).min? = some a)
    (hb : (rowDates (droppedDf df)).max? = some b) :
    filterByRange (droppedDf df) a b = droppedDf df ∧
    genderCountsOf (patientsCol (filterByRange (droppedDf df) a b)) =
      genderCountsOf (patientsCol (droppedDf df)) ∧
    eventsOverTime (rowDates (filterByRange (droppedDf df) a b)) =
      eventsOverTime (rowDates (droppedDf df)) ∧
    meanAge? (filterByRange (droppedDf df) a b) = meanAge? (droppedDf df) := by
  have hmain : filterByRange (droppedDf df) a b = droppedDf df := by
    rw [filterByRange, List.filter_eq_self]
    intro r hr
    have hs : (receiptDate? r).isSome = true :=
      (List.mem_filter.1 hr).2
    cases hd : receiptDate? r with
    | none => rw [hd] at hs; exact absurd hs (by simp)
    | some x =>
      have hx : x ∈ rowDates (droppedDf df) :=
        List.mem_filterMap.2 ⟨r, hr, hd⟩
      have h1 : a ≤ x := (List.min?_eq_some_iff'.1 ha).2 x hx
      have h2 : x ≤ b := (List.max?_eq_some_iff'.1 hb).2 x hx
      simp [h1, h2]
  exact ⟨hmain, by rw [hmain], by rw [hmain], by rw [hmain]⟩

/-- Witness for C6 on a two-row frame with dates 2024-01-05 and 2024-01-10. -/
theorem C6_witness :
    filterByRange (droppedDf [[("receiptdate", Json.str "20240105")],
        [("receiptdate", Json.str "20240110")]]) 20240105 20240110 =
      droppedDf [[("receiptdate", Json.str "20240105")],
        [("receiptdate", Json.str "20240110")]] :=
  (C6_full_range_round_trip [[("receiptdate", Json.str "20240105")],
      [("receiptdate", Json.str "20240110")]] 20240105 20240110 rfl rfl).1

/-- C3 counterexample: rows in January and March 2024 only produce a
February 2024 bucket with count 0, so a month with no rows does appear. -/
theorem C3_counterexample :
    (202402, 0) ∈ eventsOverTime [20240115, 20240315] ∧
    ([20240115, 20240315].countP fun d => monthOf d == 202402) = 0 := by
  decide

/-- C3 (amended): bucketing by month produces one entry per calendar month in
the closed span from the earliest to the latest observed date — including
zero-count entries for intermediate months with no rows — and each bucket's
count equals the number of rows whose normalized date falls in that
month-year; every dated row's month appears, with a positive count. -/
theorem C3_bucket_by_month (dates : List Nat) (a b : Nat)
    (hv : ∀ d ∈ dates, validMonthKey (monthOf d))
    (ha : dates.min? = some a) (hb : dates.max? = some b) :
    (∀ p ∈ eventsOverTime dates,
      p.2 = dates.countP fun d => monthOf d == p.1) ∧
    (∀ d ∈ dates,
      (monthOf d, dates.countP fun x => monthOf x == monthOf d) ∈
        eventsOverTime dates ∧
      1 ≤ dates.countP fun x => monthOf x == monthOf d) ∧
    (eventsOverTime dates).map Prod.fst =
      monthRange (monthOf a) (monthOf b) := by
  have he : eventsOverTime dates =
      (monthRange (monthOf a) (monthOf b)).map fun m =>
        (m, dates.countP fun d => monthOf d == m) := by
    rw [eventsOverTime, ha, hb]
  refine ⟨?_, ?_, ?_⟩
  · rw [he]
    intro p hp
    obtain ⟨m, _, rfl⟩ := List.mem_map.1 hp
    rfl
  · intro d hd
    have hmem : monthOf d ∈ monthRange (monthOf a) (monthOf b) := by
      have h1 : a ≤ d := (List.min?_eq_some_iff'.1 ha).2 d hd
      have h2 : d ≤ b := (List.max?_eq_some_iff'.1 hb).2 d hd
      have hva : validMonthKey (monthOf a) :=
        hv a (List.min?_eq_some_iff'.1 ha).1
      have hvb : validMonthKey (monthOf b) :=
        hv b (List.max?_eq_some_iff'.1 hb).1
      exact mem_monthRange (hv d hd)
        (monthIdx_mono hva (hv d hd) (monthOf_mono h1))
        (monthIdx_mono (hv d hd) hvb (monthOf_mono h2))
    constructor
    · rw [he]
      exact List.mem_map.2 ⟨monthOf d, hmem, rfl⟩
    · exact List.countP_pos_iff.2 ⟨d, hd, by simp⟩
  · rw [he, List.map_map]
    have h1 : (Prod.fst ∘ fun m : Nat =>
        (m, dates.countP fun d => monthOf d == m)) = id := rfl
    rw [h1, List.map_id]

/-- Witness for C3 on dates in January and March 2024: the bucket keys are
the full contiguous month span. -/
theorem C3_witness :
    (eventsOverTime [20240115, 20240315]).map Prod.fst =
      monthRange 202401 202403 :=
  (C3_bucket_by_month [20240115, 20240315] 20240115 20240315 (by decide)
    (by decide) (by decide)).2.2

/-- C1 counterexample: in app.py the gender aggregate is computed from the
unfiltered frame before the temporal section drops bad-date rows, so a record
whose receipt date fails to parse still feeds the sex aggregate even though
the frame carries a receiptdate column (the date-based view is requested). -/
theorem C1_counterexample :
    receiptDate? [("patient", Json.obj [("patientsex", Json.str "1")]),
      ("receiptdate", Json.str "not-a-date")] = none ∧
    hasColumn [[("patient", Json.obj [("patientsex", Json.str "1")]),
      ("receiptdate", Json.str "not-a-date")]] "receiptdate" = true ∧
    appGenderCounts [[("patient", Json.obj [("patientsex", Json.str "1")]),
      ("receiptdate", Json.str "not-a-date")]] =
      some [("Masculino", 1)] := by
  refine ⟨rfl, rfl, ?_⟩
  rfl

/-- C1 (amended): in the app-001 variant the bad-date drop happens once,
upstream of all aggregation: with a receiptdate column present, the working
set every aggregate consumes is the dropped-then-range-filtered frame, all of
whose rows have a valid normalized date, and it is a sublist of the input. -/
theorem C1_app001_drop_upstream (df : List RawRecord) (s e : Nat)
    (h : hasColumn df "receiptdate" = true) :
    app001FilteredDf df s e = filterByRange (droppedDf df) s e ∧
    (∀ r ∈ app001FilteredDf df s e, (receiptDate? r).isSome = true) ∧
    List.Sublist (app001FilteredDf df s e) df := by
  have he : app001FilteredDf df s e = filterByRange (droppedDf df) s e := by
    rw [app001FilteredDf, if_pos h]
  refine ⟨he, ?_, ?_⟩
  · intro r hr
    rw [he, filterByRange] at hr
    have hd := (List.mem_filter.1 hr).1
    exact (List.mem_filter.1 hd).2
  · rw [he, filterByRange]
    exact (List.filter_sublist _).trans (List.filter_sublist _)

/-- Witness for C1 on a one-row frame with a valid date. -/
theorem C1_witness :
    (receiptDate? [("receiptdate", Json.str "20240105")]).isSome = true :=
  (C1_app001_drop_upstream [[("receiptdate", Json.str "20240105")]]
      0 99999999 rfl).2.1 [("receiptdate", Json.str "20240105")] (by
    rw [show app001FilteredDf [[("receiptdate", Json.str "20240105")]]
      0 99999999 = [[("receiptdate", Json.str "20240105")]] from rfl]
    exact List.Mem.head _)

end OpenFDA
